import Mathlib

/-!
Verification of the yaml-variable-substitution library: the dotted-path
lookup over a parsed YAML document, the scalar stringification rules, the
two resolution contexts (CLI args + environment, and the document itself),
and the two-pass substitution pipeline.

The YAML parser (yaml-rust) and the template substitution engine
(context_based_variable_substitution) are external crates: the document
tree and the index operations are embedded following yaml-rust's data
model, the parser itself is an abstract parameter, and the substitution
engine is modelled from the specification's description of the capability.
-/

/-- The yaml-rust document node: a tagged union over real (kept as text),
integer, string, boolean, array, hash (ordered key-value pairs with Yaml
keys), alias, null and the BadValue sentinel. -/
inductive Yaml where
  | real (r : String)
  | integer (i : Int)
  | string (s : String)
  | boolean (b : Bool)
  | array (v : List Yaml)
  | hash (h : List (Yaml × Yaml))
  | aliasNode (a : Nat)
  | null
  | badValue

/-- yaml-rust `Yaml::is_array`. -/
def Yaml.is_array : Yaml → Bool
  | .array _ => true
  | _ => false

/-- yaml-rust `Yaml::is_badvalue`. -/
def Yaml.is_badvalue : Yaml → Bool
  | .badValue => true
  | _ => false

/-- Hash lookup with a `Yaml::String` key: yaml-rust hash `get` against the
derived equality, which on a string key succeeds exactly on the equal
string key. -/
def lookupStr : List (Yaml × Yaml) → String → Option Yaml
  | [], _ => none
  | (Yaml.string s, v) :: rest, k => if s = k then some v else lookupStr rest k
  | _ :: rest, k => lookupStr rest k

/-- Hash lookup with a `Yaml::Integer` key. -/
def lookupInt : List (Yaml × Yaml) → Int → Option Yaml
  | [], _ => none
  | (Yaml.integer i, v) :: rest, k => if i = k then some v else lookupInt rest k
  | _ :: rest, k => lookupInt rest k

/-- yaml-rust `Index<usize> for Yaml`: on an array, the element or BadValue
when out of bounds; on a hash, lookup of the integer key; BadValue on
everything else. -/
def Yaml.indexUsize : Yaml → Nat → Yaml
  | .array v, i => (v.get? i).getD .badValue
  | .hash h, i => (lookupInt h (Int.ofNat i)).getD .badValue
  | _, _ => .badValue

/-- yaml-rust `Index<&str> for Yaml`: hash field lookup, BadValue when the
field is missing or the node is not a hash. -/
def Yaml.indexStr : Yaml → String → Yaml
  | .hash h, k => (lookupStr h k).getD .badValue
  | _, _ => .badValue

/-- Rust `str::parse::<usize>`: an optional leading '+', then one or more
decimal digits, rejected on overflow of the 64-bit range. -/
def parseUsize (s : String) : Option Nat :=
  let digits := match s.data with
    | '+' :: rest => rest
    | cs => cs
  if digits.isEmpty then none
  else if digits.all Char.isDigit then
    let n := digits.foldl (fun acc c => acc * 10 + (c.toNat - 48)) 0
    if n < 2 ^ 64 then some n else none
  else none

/-- Rust `"...".split(".")` specialised to the `.` separator: the list of
segments, with empty segments preserved (the empty string splits to one
empty segment). -/
def splitDotAux : List Char → List Char → List String
  | [], acc => [String.mk acc.reverse]
  | '.' :: rest, acc => String.mk acc.reverse :: splitDotAux rest []
  | c :: rest, acc => splitDotAux rest (c :: acc)

def splitDot (cs : List Char) : List String :=
  splitDotAux cs []

/-- `get_string_from_yaml_object`: the scalar stringifier. Real keeps the
parser's stored text, Integer its decimal form, String itself, Boolean
"true"/"false", Null the literal "null"; every other node is None. -/
def get_string_from_yaml_object : Yaml → Option String
  | .real r => some r
  | .integer i => some (toString i)
  | .string s => some s
  | .boolean b => some (if b then "true" else "false")
  | .null => some "null"
  | _ => none

/-- The loop body of `YamlContext::get_value_from_key`: on an array with a
segment that parses as usize, index by position (with `continue`); in every
other case index by the segment as a field name. -/
def yamlStep (yobj : Yaml) (k : String) : Yaml :=
  if yobj.is_array then
    match parseUsize k with
    | some k_usize => yobj.indexUsize k_usize
    | none => yobj.indexStr k
  else
    yobj.indexStr k

/-- `YamlContext::get_value_from_key`: split the key on '.', walk the
document with `yamlStep` per segment, and stringify the reached node unless
it is the BadValue sentinel. -/
def YamlContext.get_value_from_key (yaml : Yaml) (key : String) : Option String :=
  let key_split := splitDot key.data
  let yobj := key_split.foldl yamlStep yaml
  if yobj.is_badvalue then none else get_string_from_yaml_object yobj

/-- `get_env_str` over an injected read-only environment snapshot (the
source reads the process environment; the snapshot is the spec's §9
abstraction of it): present variable to Some, absent to None. -/
def get_env_str (env : String → Option String) (key : String) : Option String :=
  env key

/-- Modelled from the spec: the substitution crate's `Context` impl for a
`Vec<String>` of CLI arguments, which the source delegates to — parse the
whole key as an integer index and bounds-check it; non-numeric or
out-of-range is None. -/
def vecContextGet (cli_args : List String) (key : String) : Option String :=
  match parseUsize key with
  | some n => cli_args.get? n
  | none => none

/-- Rust `key.starts_with("ENV:")`: the key's first four characters are
exactly 'E', 'N', 'V', ':' (each one byte, so byte and character prefix
agree). -/
def startsWithENV (key : String) : Bool :=
  match key.data with
  | 'E' :: 'N' :: 'V' :: ':' :: _ => true
  | _ => false

/-- Rust `&key[4..]` on a key whose first four bytes are the ASCII prefix
"ENV:": the remainder after those four characters. -/
def dropPrefix4 (key : String) : String :=
  String.mk (key.data.drop 4)

/-- `ArgEnvContext::get_value_from_key`: a key with the literal prefix
"ENV:" is an environment lookup of the remainder after the prefix;
every other key is a positional CLI-argument lookup. -/
def ArgEnvContext.get_value_from_key (env : String → Option String)
    (cli_args : List String) (key : String) : Option String :=
  if startsWithENV key then
    get_env_str env (dropPrefix4 key)
  else
    vecContextGet cli_args key

/-- The substitution crate's failure modes used by this library: ignore
(leave an unresolved placeholder verbatim) and fatal abort. -/
inductive FailureMode where
  | FM_ignore
  | FM_panic
deriving DecidableEq

def FailureMode.isFatal : FailureMode → Bool
  | .FM_panic => true
  | .FM_ignore => false

/-- Outcome of one substitution run over a character list: the rewritten
text, or a fatal abort carrying the unresolved key. -/
inductive SubstRes where
  | ok (out : List Char)
  | aborted (key : String)
deriving DecidableEq

/-- Prepend already-emitted characters to a substitution outcome. -/
def SubstRes.consPre (pre : List Char) : SubstRes → SubstRes
  | .ok out => .ok (pre ++ out)
  | .aborted k => .aborted k

/-- Modelled from the spec: the scanner's search for the two-character
closer of a placeholder span — the characters before the first closing
pair, and the rest after it. -/
def takeUntilClose : List Char → Option (List Char × List Char)
  | '\x7d' :: '\x7d' :: rest => some ([], rest)
  | c :: rest =>
    match takeUntilClose rest with
    | some (a, b) => some (c :: a, b)
    | none => none
  | [] => none

/-- Modelled from the spec: whether the text begins with the placeholder
opener (a dollar sign and two opening braces); when it does, the rest of
the text after the opener. -/
def splitMarker : List Char → Option (List Char)
  | '$' :: '\x7b' :: '\x7b' :: rest => some rest
  | _ => none

def isSpaceChar (c : Char) : Bool :=
  c = ' ' || c = '\t' || c = '\n' || c = '\r'

/-- Whitespace trim of the raw span contents, yielding the key. -/
def trimChars (cs : List Char) : List Char :=
  ((cs.dropWhile isSpaceChar).reverse.dropWhile isSpaceChar).reverse

/-- Modelled from the spec: the external substitution engine's scan, with
fuel bounding the number of steps (the text's length suffices, as every
step consumes at least one character). At each position: on a placeholder
span, resolve the trimmed key through the context — a resolved value is
emitted in place of the span; an unresolved key is a fatal abort in fatal
mode and is left verbatim otherwise; a span with no closer is emitted
verbatim to the end. All other characters are copied unchanged. -/
def substCharsFuel (resolve : String → Option String) (fatal : Bool) :
    Nat → List Char → SubstRes
  | 0, cs => .ok cs
  | Nat.succ _, [] => .ok []
  | Nat.succ fuel, c :: rest =>
    match splitMarker (c :: rest) with
    | some afterMarker =>
      match takeUntilClose afterMarker with
      | some (inside, rest2) =>
        let key := String.mk (trimChars inside)
        match resolve key with
        | some v => (substCharsFuel resolve fatal fuel rest2).consPre v.data
        | none =>
          if fatal then .aborted key
          else (substCharsFuel resolve fatal fuel rest2).consPre
            ('$' :: '\x7b' :: '\x7b' :: (inside ++ ['\x7d', '\x7d']))
      | none => .ok (c :: rest)
    | none => (substCharsFuel resolve fatal fuel rest).consPre [c]

/-- Whether the text contains the placeholder opener anywhere. -/
def hasMarker : List Char → Bool
  | [] => false
  | c :: rest => (splitMarker (c :: rest)).isSome || hasMarker rest

/-- Outcome of `replace_all_from` at the string level. -/
inductive StrSubstRes where
  | ok (out : String)
  | aborted (key : String)
deriving DecidableEq

/-- Modelled from the spec: the external substitution capability — given
text, a key-to-string resolver and a failure mode, produce new text (or
abort fatally on an unresolved key in fatal mode). -/
def replace_all_from (text : String) (resolve : String → Option String)
    (fm : FailureMode) : StrSubstRes :=
  match substCharsFuel resolve fm.isFatal text.data.length text.data with
  | .ok out => .ok (String.mk out)
  | .aborted k => .aborted k

inductive ErrorKind where
  | InvalidInput
deriving DecidableEq

/-- `std::io::Error` as this library builds it: a kind and a message. -/
structure IoError where
  kind : ErrorKind
  msg : String
deriving DecidableEq

/-- `load_yaml_from_str` over an abstract YAML parser (yaml-rust's
`YamlLoader::load_from_str` is an external crate): a parse failure becomes
an InvalidInput error wrapping the parser's message, an empty document
list becomes the empty-file InvalidInput error, and otherwise the
documents are returned. -/
def load_yaml_from_str (parse : String → Except String (List Yaml))
    (yaml_str : String) : Except IoError (List Yaml) :=
  match parse yaml_str with
  | .error e => .error ⟨ErrorKind.InvalidInput, "Failed to parse yaml file:\n" ++ e⟩
  | .ok yaml_doc =>
    if yaml_doc.length = 0 then
      .error ⟨ErrorKind.InvalidInput, "Cannot proceed with empty yaml file"⟩
    else
      .ok yaml_doc

/-- Result of the pipeline: the substituted text, a returned error, or a
fatal abort (the source's second-pass failure mode) carrying the
unresolved key. -/
inductive PipelineResult where
  | ok (s : String)
  | ioErr (e : IoError)
  | aborted (key : String)
deriving DecidableEq

/-- `read_yaml_string_from_string`: pass 1 substitutes over the raw text
with the CLI-args-and-environment context in ignore mode; the result is
parsed; pass 2 substitutes over the pass-1 output with the document
context over the first parsed document in fatal mode, and its output is
returned. -/
def read_yaml_string_from_string (parse : String → Except String (List Yaml))
    (env : String → Option String) (yaml_str : String)
    (cli_args : List String) : PipelineResult :=
  match replace_all_from yaml_str (ArgEnvContext.get_value_from_key env cli_args)
      FailureMode.FM_ignore with
  | .aborted k => .aborted k
  | .ok yaml_out_str =>
    match load_yaml_from_str parse yaml_out_str with
    | .error e => .ioErr e
    | .ok yaml_doc =>
      match replace_all_from yaml_out_str
          (YamlContext.get_value_from_key (yaml_doc.headD Yaml.badValue))
          FailureMode.FM_panic with
      | .aborted k => .aborted k
      | .ok out2 => .ok out2

/-- Tells a returned error apart from the other pipeline outcomes. -/
def PipelineResult.isReturnedErr : PipelineResult → Bool
  | .ioErr _ => true
  | _ => false

/-- The Path Resolver's walk as §4.2 of the specification words it: per
segment, a Sequence node with a segment that parses as a non-negative
integer is indexed by position; otherwise (also when the parse fails) the
segment is looked up as a mapping field name. -/
def walkSpec : Yaml → List String → Yaml
  | y, [] => y
  | y, seg :: rest =>
    walkSpec
      (if y.is_array then
        match parseUsize seg with
        | some n => y.indexUsize n
        | none => y.indexStr seg
      else y.indexStr seg) rest

/-- The Path Resolver as the specification words it: split the key on '.',
walk segment by segment, then answer None on the Error/BadValue sentinel
and the Scalar Stringifier's answer otherwise. -/
def resolveSpec (root : Yaml) (key : String) : Option String :=
  let finalNode := walkSpec root (splitDot key.data)
  if finalNode.is_badvalue then none else get_string_from_yaml_object finalNode

/-- A concrete environment snapshot for witnesses. -/
def env0 : String → Option String :=
  fun k => if k = "TITLE" then some "BEAUTIFUL" else none

/-- A concrete parser for witnesses, fixing yaml-rust's behaviour on a few
inputs: the empty string parses to zero documents, two small mappings
parse to their trees, and everything else is a parse error. -/
def parse0 : String → Except String (List Yaml) := fun s =>
  if s = "" then Except.ok []
  else if s = "a: 1" then Except.ok [Yaml.hash [(Yaml.string "a", Yaml.integer 1)]]
  else if s = "a: $\x7b\x7b missing \x7d\x7d" then
    Except.ok [Yaml.hash [(Yaml.string "a", Yaml.string "$\x7b\x7b missing \x7d\x7d")]]
  else Except.error "while parsing node"


/-! ## Helper lemmas -/

theorem substCharsFuel_no_marker (resolve : String → Option String) (fatal : Bool) :
    ∀ (fuel : Nat) (cs : List Char), hasMarker cs = false →
      substCharsFuel resolve fatal fuel cs = SubstRes.ok cs := by
  intro fuel
  induction fuel with
  | zero => intro cs _; rfl
  | succ n ih =>
    intro cs h
    match cs with
    | [] => rfl
    | c :: rest =>
      rw [hasMarker] at h
      obtain ⟨h1, h2⟩ := Bool.or_eq_false_iff.mp h
      have hm : splitMarker (c :: rest) = none := by
        cases hsm : splitMarker (c :: rest) with
        | none => rfl
        | some x => rw [hsm] at h1; simp at h1
      simp only [substCharsFuel, hm]
      rw [ih rest h2]
      rfl

theorem substCharsFuel_ignore_ok (resolve : String → Option String) :
    ∀ (fuel : Nat) (cs : List Char), ∃ out,
      substCharsFuel resolve false fuel cs = SubstRes.ok out := by
  intro fuel
  induction fuel with
  | zero => intro cs; exact ⟨cs, rfl⟩
  | succ n ih =>
    intro cs
    match cs with
    | [] => exact ⟨[], rfl⟩
    | c :: rest =>
      cases hsm : splitMarker (c :: rest) with
      | none =>
        obtain ⟨out, hout⟩ := ih rest
        refine ⟨c :: out, ?_⟩
        simp [substCharsFuel, hsm, hout, SubstRes.consPre]
      | some afterMarker =>
        cases htc : takeUntilClose afterMarker with
        | none =>
          refine ⟨c :: rest, ?_⟩
          simp [substCharsFuel, hsm, htc]
        | some pr =>
          obtain ⟨inside, rest2⟩ := pr
          cases hres : resolve (String.mk (trimChars inside)) with
          | some v =>
            obtain ⟨out, hout⟩ := ih rest2
            refine ⟨v.data ++ out, ?_⟩
            simp [substCharsFuel, hsm, htc, hres, hout, SubstRes.consPre]
          | none =>
            obtain ⟨out, hout⟩ := ih rest2
            refine ⟨'$' :: '\x7b' :: '\x7b' :: (inside ++ ['\x7d', '\x7d']) ++ out, ?_⟩
            simp [substCharsFuel, hsm, htc, hres, hout, SubstRes.consPre]

theorem replace_all_from_ignore_ok (text : String) (resolve : String → Option String) :
    ∃ out, replace_all_from text resolve FailureMode.FM_ignore = StrSubstRes.ok out := by
  obtain ⟨out, hout⟩ := substCharsFuel_ignore_ok resolve text.data.length text.data
  exact ⟨String.mk out, by rw [replace_all_from, FailureMode.isFatal, hout]⟩

theorem replace_all_from_no_marker (text : String) (resolve : String → Option String)
    (fm : FailureMode) (h : hasMarker text.data = false) :
    replace_all_from text resolve fm = StrSubstRes.ok text := by
  rw [replace_all_from, substCharsFuel_no_marker resolve fm.isFatal text.data.length text.data h]

theorem load_yaml_err (parse : String → Except String (List Yaml)) (s e : String)
    (h : parse s = Except.error e) :
    load_yaml_from_str parse s
      = Except.error ⟨ErrorKind.InvalidInput, "Failed to parse yaml file:\n" ++ e⟩ := by
  rw [load_yaml_from_str, h]

theorem load_yaml_nil (parse : String → Except String (List Yaml)) (s : String)
    (h : parse s = Except.ok []) :
    load_yaml_from_str parse s
      = Except.error ⟨ErrorKind.InvalidInput, "Cannot proceed with empty yaml file"⟩ := by
  rw [load_yaml_from_str, h]
  rfl

theorem load_yaml_cons (parse : String → Except String (List Yaml)) (s : String)
    (d : Yaml) (ds : List Yaml) (h : parse s = Except.ok (d :: ds)) :
    load_yaml_from_str parse s = Except.ok (d :: ds) := by
  rw [load_yaml_from_str, h]
  simp

theorem foldl_yamlStep_eq_walkSpec : ∀ (segs : List String) (y : Yaml),
    List.foldl yamlStep y segs = walkSpec y segs := by
  intro segs
  induction segs with
  | nil => intro y; rfl
  | cons s rest ih =>
    intro y
    rw [List.foldl_cons, walkSpec]
    exact ih _

theorem foldl_yamlStep_badValue : ∀ segs : List String,
    List.foldl yamlStep Yaml.badValue segs = Yaml.badValue := by
  intro segs
  induction segs with
  | nil => rfl
  | cons s rest ih => rw [List.foldl_cons]; exact ih

/-! ## Claim theorems -/

/-- C1: for every input text and CLI argument list,
`read_yaml_string_from_string` performs exactly two sequential
substitution passes in a fixed order — pass 1 runs the substitution
engine over the raw input text with the External Context (CLI args +
environment) in non-fatal ignore mode and cannot abort; the pass-1 output
is parsed as YAML; pass 2 builds a Document Context over the first parsed
document and runs the engine over the pass-1 output text (not the
original raw text) in fatal mode, and the pass-2 output is the returned
string. -/
theorem c1_two_pass_pipeline (parse : String → Except String (List Yaml))
    (env : String → Option String) (yaml_str : String) (cli_args : List String) :
    ∃ stage1 : String,
      replace_all_from yaml_str (ArgEnvContext.get_value_from_key env cli_args)
        FailureMode.FM_ignore = StrSubstRes.ok stage1 ∧
      read_yaml_string_from_string parse env yaml_str cli_args =
        (match load_yaml_from_str parse stage1 with
         | Except.error e => PipelineResult.ioErr e
         | Except.ok yaml_doc =>
           match replace_all_from stage1
               (YamlContext.get_value_from_key (yaml_doc.headD Yaml.badValue))
               FailureMode.FM_panic with
           | StrSubstRes.aborted k => PipelineResult.aborted k
           | StrSubstRes.ok out2 => PipelineResult.ok out2) := by
  obtain ⟨stage1, h1⟩ :=
    replace_all_from_ignore_ok yaml_str (ArgEnvContext.get_value_from_key env cli_args)
  refine ⟨stage1, h1, ?_⟩
  simp only [read_yaml_string_from_string, h1]

/-- C2 (amended): when a key fails to resolve during stage 2, the
pipeline neither substitutes an empty string nor leaves the placeholder
verbatim; it propagates the substitution engine's fatal abort (the
source's FM_panic) carrying the offending key, rather than returning a
typed error to the caller. -/
theorem c2_stage2_failure_aborts (parse : String → Except String (List Yaml))
    (env : String → Option String) (yaml_str stage1 : String)
    (cli_args : List String) (docs : List Yaml) (k : String)
    (h1 : replace_all_from yaml_str (ArgEnvContext.get_value_from_key env cli_args)
      FailureMode.FM_ignore = StrSubstRes.ok stage1)
    (h2 : load_yaml_from_str parse stage1 = Except.ok docs)
    (h3 : replace_all_from stage1
      (YamlContext.get_value_from_key (docs.headD Yaml.badValue))
      FailureMode.FM_panic = StrSubstRes.aborted k) :
    read_yaml_string_from_string parse env yaml_str cli_args
      = PipelineResult.aborted k := by
  simp only [read_yaml_string_from_string, h1, h2, h3]

theorem c2_witness :
    read_yaml_string_from_string parse0 env0 "a: $\x7b\x7b missing \x7d\x7d" []
      = PipelineResult.aborted "missing" :=
  c2_stage2_failure_aborts parse0 env0 "a: $\x7b\x7b missing \x7d\x7d"
    "a: $\x7b\x7b missing \x7d\x7d" []
    [Yaml.hash [(Yaml.string "a", Yaml.string "$\x7b\x7b missing \x7d\x7d")]]
    "missing" rfl rfl rfl

/-- C2 counterexample to the claim as stated: on this input the stage-2
failure is a fatal abort of the run (the FM_panic mode), not an error
value returned to the caller. -/
theorem c2_counterexample :
    read_yaml_string_from_string parse0 env0 "a: $\x7b\x7b missing \x7d\x7d" []
      = PipelineResult.aborted "missing" ∧
    PipelineResult.isReturnedErr
      (read_yaml_string_from_string parse0 env0 "a: $\x7b\x7b missing \x7d\x7d" [])
      = false := by
  exact ⟨by decide, by decide⟩

/-- C3: for every document root and dotted key, the Document Context
resolver equals the spec-worded Path Resolver: split the key on '.', per
segment index a Sequence by the segment parsed as a non-negative integer
(field lookup otherwise, also when the parse fails), and finally answer
None on the Error/BadValue sentinel and the Scalar Stringifier's answer
otherwise. -/
theorem c3_path_resolver_matches_spec (root : Yaml) (key : String) :
    YamlContext.get_value_from_key root key = resolveSpec root key := by
  simp only [YamlContext.get_value_from_key, resolveSpec,
    foldl_yamlStep_eq_walkSpec]

/-- C4: the scalar stringifier answers Some of the node's text exactly on
scalars — Real its stored textual numeric form, Integer its decimal form,
String itself, Boolean "true"/"false", Null the literal "null" — and None
on every Sequence, Mapping, Alias and Error/BadValue node. -/
theorem c4_scalar_stringifier :
    (∀ r, get_string_from_yaml_object (Yaml.real r) = some r) ∧
    (∀ i, get_string_from_yaml_object (Yaml.integer i) = some (toString i)) ∧
    (∀ s, get_string_from_yaml_object (Yaml.string s) = some s) ∧
    (∀ b, get_string_from_yaml_object (Yaml.boolean b)
      = some (if b then "true" else "false")) ∧
    get_string_from_yaml_object Yaml.null = some "null" ∧
    (∀ v, get_string_from_yaml_object (Yaml.array v) = none) ∧
    (∀ h, get_string_from_yaml_object (Yaml.hash h) = none) ∧
    (∀ a, get_string_from_yaml_object (Yaml.aliasNode a) = none) ∧
    get_string_from_yaml_object Yaml.badValue = none :=
  ⟨fun _ => rfl, fun _ => rfl, fun _ => rfl, fun _ => rfl, rfl,
    fun _ => rfl, fun _ => rfl, fun _ => rfl, rfl⟩

/-- C9: the stringifier returns a Real node's stored text character for
character, with no numeric parsing, rounding or normalisation — "1.50"
and "1e3" stay as written. -/
theorem c9_real_text_preserved :
    (∀ r, get_string_from_yaml_object (Yaml.real r) = some r) ∧
    get_string_from_yaml_object (Yaml.real "1.50") = some "1.50" ∧
    get_string_from_yaml_object (Yaml.real "1e3") = some "1e3" :=
  ⟨fun _ => rfl, rfl, rfl⟩

/-- C5: the External Context resolves a key with the literal prefix
"ENV:" as the environment variable named by the remainder (None when
absent, since the snapshot answers None there), and any other key as the
CLI argument at the index obtained by parsing the whole key, with None on
a non-numeric key and None on an out-of-range index. -/
theorem c5_external_context (env : String → Option String)
    (cli_args : List String) (key : String) :
    ArgEnvContext.get_value_from_key env cli_args key =
      (if startsWithENV key then env (dropPrefix4 key)
       else match parseUsize key with
         | some n => cli_args.get? n
         | none => none) ∧
    (startsWithENV key = false → parseUsize key = none →
      ArgEnvContext.get_value_from_key env cli_args key = none) ∧
    (startsWithENV key = false → ∀ n, parseUsize key = some n →
      cli_args.length ≤ n →
      ArgEnvContext.get_value_from_key env cli_args key = none) := by
  refine ⟨rfl, ?_, ?_⟩
  · intro h hn
    simp [ArgEnvContext.get_value_from_key, h, vecContextGet, hn]
  · intro h n hn hlen
    have hnone : cli_args.get? n = none := List.get?_eq_none.mpr hlen
    simp [ArgEnvContext.get_value_from_key, h, vecContextGet, hn, hnone]
    exact hlen

theorem c5_witness :
    ArgEnvContext.get_value_from_key env0 ["some_arg", "other_arg"] "5" = none :=
  (c5_external_context env0 ["some_arg", "other_arg"] "5").2.2 rfl 5 rfl
    (by decide)

/-- C10: the environment branch is selected for every key whose first
four characters are exactly "ENV:", including the key that is exactly
"ENV:" (which looks up the empty-named environment variable, None when
the snapshot holds no empty name); once selected, the CLI-argument lookup
is never consulted, so the answer is the same for every argument list. -/
theorem c10_env_branch_no_fallback (env : String → Option String)
    (args args2 : List String) (key : String)
    (h : startsWithENV key = true) :
    ArgEnvContext.get_value_from_key env args key = env (dropPrefix4 key) ∧
    ArgEnvContext.get_value_from_key env args key
      = ArgEnvContext.get_value_from_key env args2 key ∧
    ArgEnvContext.get_value_from_key env args "ENV:" = env "" ∧
    (env "" = none → ArgEnvContext.get_value_from_key env args "ENV:" = none) := by
  refine ⟨?_, ?_, ?_, ?_⟩
  · simp [ArgEnvContext.get_value_from_key, h, get_env_str]
  · simp [ArgEnvContext.get_value_from_key, h, get_env_str]
  · rfl
  · intro he
    simp [ArgEnvContext.get_value_from_key, startsWithENV, get_env_str,
      dropPrefix4, he]

theorem c10_witness :
    ArgEnvContext.get_value_from_key env0 ["some_arg"] "ENV:" = none :=
  (c10_env_branch_no_fallback env0 ["some_arg"] [] "ENV:" rfl).2.2.2 rfl

/-- C6: dotted-path traversal is total and never aborts early — an
out-of-bounds sequence index, a missing mapping field, or a descent into
a non-container yields the BadValue node, which is carried forward
through all remaining segments, so the whole lookup uniformly answers
None; in particular "segments.3" against a document whose segments field
is an array with an element at index 3 answers that element stringified,
while an out-of-range index answers None. -/
theorem c6_traversal_total_carries_badvalue :
    (∀ segs : List String,
      List.foldl yamlStep Yaml.badValue segs = Yaml.badValue) ∧
    (∀ (xs : List Yaml) (n : Nat), xs.get? n = none →
      Yaml.indexUsize (Yaml.array xs) n = Yaml.badValue) ∧
    (∀ (kvs : List (Yaml × Yaml)) (k : String), lookupStr kvs k = none →
      Yaml.indexStr (Yaml.hash kvs) k = Yaml.badValue) ∧
    (∀ (s : String) (k : String),
      Yaml.indexStr (Yaml.string s) k = Yaml.badValue) ∧
    (∀ (root : Yaml) (key : String) (l1 l2 : List String),
      splitDot key.data = l1 ++ l2 →
      List.foldl yamlStep root l1 = Yaml.badValue →
      YamlContext.get_value_from_key root key = none) ∧
    (∀ (kvs : List (Yaml × Yaml)) (xs : List Yaml) (v : Yaml) (s : String),
      lookupStr kvs "segments" = some (Yaml.array xs) →
      xs.get? 3 = some v →
      get_string_from_yaml_object v = some s →
      YamlContext.get_value_from_key (Yaml.hash kvs) "segments.3" = some s) ∧
    (∀ (kvs : List (Yaml × Yaml)) (xs : List Yaml),
      lookupStr kvs "segments" = some (Yaml.array xs) →
      xs.length ≤ 3 →
      YamlContext.get_value_from_key (Yaml.hash kvs) "segments.3" = none) := by
  have hsplit : splitDot ("segments.3").data = ["segments", "3"] := by decide
  have hp3 : parseUsize "3" = some 3 := by decide
  refine ⟨foldl_yamlStep_badValue, ?_, ?_, ?_, ?_, ?_, ?_⟩
  · intro xs n h
    rw [List.get?_eq_getElem?] at h
    simp [Yaml.indexUsize, h]
  · intro kvs k h
    simp [Yaml.indexStr, h]
  · intro s k
    rfl
  · intro root key l1 l2 hs hbad
    simp only [YamlContext.get_value_from_key, hs, List.foldl_append, hbad,
      foldl_yamlStep_badValue]
    rfl
  · intro kvs xs v s h1 h2 h3
    have hstep1 : yamlStep (Yaml.hash kvs) "segments" = Yaml.array xs := by
      simp [yamlStep, Yaml.is_array, Yaml.indexStr, h1]
    have hstep2 : yamlStep (Yaml.array xs) "3" = v := by
      rw [List.get?_eq_getElem?] at h2
      simp [yamlStep, Yaml.is_array, hp3, Yaml.indexUsize, h2]
    have hv : Yaml.is_badvalue v = false := by
      cases v <;> simp_all [get_string_from_yaml_object, Yaml.is_badvalue]
    simp only [YamlContext.get_value_from_key, hsplit, List.foldl_cons,
      List.foldl_nil, hstep1, hstep2, hv]
    simp [h3]
  · intro kvs xs h1 hlen
    have hget : xs.get? 3 = none := List.get?_eq_none.mpr hlen
    have hstep1 : yamlStep (Yaml.hash kvs) "segments" = Yaml.array xs := by
      simp [yamlStep, Yaml.is_array, Yaml.indexStr, h1]
    have hstep2 : yamlStep (Yaml.array xs) "3" = Yaml.badValue := by
      rw [List.get?_eq_getElem?] at hget
      simp [yamlStep, Yaml.is_array, hp3, Yaml.indexUsize, hget]
    simp only [YamlContext.get_value_from_key, hsplit, List.foldl_cons,
      List.foldl_nil, hstep1, hstep2]
    rfl

theorem c6_witness :
    YamlContext.get_value_from_key
      (Yaml.hash [(Yaml.string "segments",
        Yaml.array [Yaml.string "a", Yaml.string "b", Yaml.string "c",
          Yaml.string "defaultv"])])
      "segments.3" = some "defaultv" :=
  c6_traversal_total_carries_badvalue.2.2.2.2.2.1
    [(Yaml.string "segments",
      Yaml.array [Yaml.string "a", Yaml.string "b", Yaml.string "c",
        Yaml.string "defaultv"])]
    [Yaml.string "a", Yaml.string "b", Yaml.string "c", Yaml.string "defaultv"]
    (Yaml.string "defaultv") "defaultv" rfl rfl rfl

/-- C7: loading YAML from a string returns an InvalidInput error wrapping
the parser's message when the text fails to parse, returns the
empty-file InvalidInput error when the text parses to zero documents (as
the empty string does), and otherwise returns the non-empty document
list. -/
theorem c7_load_yaml_from_str (parse : String → Except String (List Yaml)) :
    (∀ s e, parse s = Except.error e →
      load_yaml_from_str parse s
        = Except.error ⟨ErrorKind.InvalidInput, "Failed to parse yaml file:\n" ++ e⟩) ∧
    (∀ s, parse s = Except.ok [] →
      load_yaml_from_str parse s
        = Except.error ⟨ErrorKind.InvalidInput, "Cannot proceed with empty yaml file"⟩) ∧
    (∀ s d ds, parse s = Except.ok (d :: ds) →
      load_yaml_from_str parse s = Except.ok (d :: ds)) ∧
    (parse "" = Except.ok [] →
      load_yaml_from_str parse ""
        = Except.error ⟨ErrorKind.InvalidInput, "Cannot proceed with empty yaml file"⟩) :=
  ⟨fun s e h => load_yaml_err parse s e h,
   fun s h => load_yaml_nil parse s h,
   fun s d ds h => load_yaml_cons parse s d ds h,
   fun h => load_yaml_nil parse "" h⟩

theorem c7_witness :
    load_yaml_from_str parse0 ""
      = Except.error ⟨ErrorKind.InvalidInput, "Cannot proceed with empty yaml file"⟩ :=
  (c7_load_yaml_from_str parse0).2.2.2 rfl

/-- C8: round-trip identity — an input text with no placeholder
expressions that parses as a non-empty YAML document set passes through
`read_yaml_string_from_string` unchanged. -/
theorem c8_round_trip_identity (parse : String → Except String (List Yaml))
    (env : String → Option String) (yaml_str : String) (cli_args : List String)
    (d : Yaml) (ds : List Yaml)
    (hnm : hasMarker yaml_str.data = false)
    (hp : parse yaml_str = Except.ok (d :: ds)) :
    read_yaml_string_from_string parse env yaml_str cli_args
      = PipelineResult.ok yaml_str := by
  have h1 := replace_all_from_no_marker yaml_str
    (ArgEnvContext.get_value_from_key env cli_args) FailureMode.FM_ignore hnm
  have hload := load_yaml_cons parse yaml_str d ds hp
  have h2 := replace_all_from_no_marker yaml_str
    (YamlContext.get_value_from_key ((d :: ds).headD Yaml.badValue))
    FailureMode.FM_panic hnm
  simp only [read_yaml_string_from_string, h1, hload, h2]

theorem c8_witness :
    read_yaml_string_from_string parse0 env0 "a: 1" []
      = PipelineResult.ok "a: 1" :=
  c8_round_trip_identity parse0 env0 "a: 1" []
    (Yaml.hash [(Yaml.string "a", Yaml.integer 1)]) [] (by decide) rfl
